import Mathlib

/-!
Verification of the audio engine of the rhythmlist application.

The development shallowly embeds two parts of the code base:

* the waveform downsampling worker (`src/workers/waveformWorker.ts`,
  `self.onmessage`): an input sample buffer is reduced to `targetPoints`
  RMS values and normalized by the maximum value;
* the playback scheduler (`AudioPlaybackProvider` in the same source file):
  a single-session audio player with loop points, driven by an
  animation-frame tick loop, plus the loop-point editor
  (`src/components/LoopEditor.tsx`).

JavaScript numbers are modelled by real numbers, extended with the two
non-finite values the worker can actually produce (`NaN` from `0/0` on an
empty RMS window, `-Infinity` from `Math.max()` of an empty array).  The
scheduler and the loop editor only ever add, subtract, multiply, compare,
and take `min`/`max` of finite values, so they are modelled over `ℚ`,
which keeps every scheduler definition executable.
-/

namespace WaveformWorker

/-- A JavaScript number as the worker manipulates it: a finite real value,
the `NaN` produced by `0/0` (an empty RMS window), or the `-Infinity`
produced by `Math.max()` on an empty array (only reachable when
`targetPoints = 0`). -/
inductive JSNum where
  | nan : JSNum
  | neginf : JSNum
  | num : ℝ → JSNum

/-- Division `sum / (end - start)` as JavaScript computes it inside
`rms = Math.sqrt(sum / (end - start))`: the divisor is the window length.
When the window is empty the numerator (a sum over an empty range) is `0`,
so the JavaScript result is `0/0 = NaN`. -/
noncomputable def jsDivByLen (sum : ℝ) (n : ℕ) : JSNum :=
  if n = 0 then .nan else .num (sum / n)

/-- The `Math.sqrt` call: `NaN` propagates and negative arguments give
`NaN` (the worker only ever passes nonnegative means). -/
noncomputable def jsSqrt : JSNum → JSNum
  | .nan => .nan
  | .neginf => .nan
  | .num x => if x < 0 then .nan else .num (Real.sqrt x)

/-- The binary step of `Math.max(...waveformData)`: `NaN` absorbs,
`-Infinity` is the identity. -/
noncomputable def jsMax2 : JSNum → JSNum → JSNum
  | .nan, _ => .nan
  | _, .nan => .nan
  | .neginf, b => b
  | a, .neginf => a
  | .num a, .num b => .num (max a b)

/-- `Math.max(...l)`: fold of `jsMax2` starting from `-Infinity`
(the value `Math.max()` returns for an empty argument list). -/
noncomputable def jsMaxList (l : List JSNum) : JSNum :=
  l.foldl jsMax2 .neginf

/-- The normalization division `val / maxAmplitude`.  On the only branch
where the worker executes it, `maxAmplitude` has already passed the
`maxAmplitude > 0` test, so the divisor is a positive finite number; the
remaining cases (a `NaN` operand, a zero or non-finite divisor) are given
the JavaScript `NaN` result of the exercised `NaN` cases and are proved
unreachable on that branch. -/
noncomputable def jsDivBy : JSNum → JSNum → JSNum
  | .num a, .num b => if b = 0 then .nan else .num (a / b)
  | _, _ => .nan

/-- The JavaScript test `maxAmplitude > 0`: false for `NaN` and for
`-Infinity`. -/
noncomputable def jsGtZero : JSNum → Bool
  | .num x => decide (0 < x)
  | _ => false

/-- `samplesPerPoint = Math.floor(channelData.length / targetPoints)`.
For `targetPoints > 0` this is natural-number division; the worker is only
invoked with a positive target count. -/
def samplesPerPoint (len targetPoints : ℕ) : ℕ :=
  len / targetPoints

/-- The inner accumulation `sum += channelData[j] * channelData[j]` for
`j ∈ [start, stop)`.  The worker only reads indices below
`channelData.length`, so the `getD` default is never consulted. -/
def windowSumSq (channelData : List ℝ) (start stop : ℕ) : ℝ :=
  ((List.range' start (stop - start)).map
    (fun j => channelData.getD j 0 * channelData.getD j 0)).sum

/-- The RMS value pushed for window `i`:
`start = i * samplesPerPoint`, `end = min(start + samplesPerPoint, len)`,
`rms = Math.sqrt(sum / (end - start))`. -/
noncomputable def rmsAt (channelData : List ℝ) (spp i : ℕ) : JSNum :=
  let start := i * spp
  let stop := min (start + spp) channelData.length
  jsSqrt (jsDivByLen (windowSumSq channelData start stop) (stop - start))

/-- The `waveformData` array accumulated by the `for` loop: one RMS value
per window index `i ∈ [0, targetPoints)`. -/
noncomputable def waveformData (channelData : List ℝ) (targetPoints : ℕ) : List JSNum :=
  (List.range targetPoints).map
    (rmsAt channelData (samplesPerPoint channelData.length targetPoints))

/-- The worker's `normalizedData`: every value divided by `maxAmplitude`
when `maxAmplitude > 0`, the raw `waveformData` otherwise. -/
noncomputable def normalizedData (channelData : List ℝ) (targetPoints : ℕ) : List JSNum :=
  let wd := waveformData channelData targetPoints
  let maxAmplitude := jsMaxList wd
  if jsGtZero maxAmplitude then wd.map (fun val => jsDivBy val maxAmplitude) else wd

lemma windowSumSq_nonneg (channelData : List ℝ) (start stop : ℕ) :
    0 ≤ windowSumSq channelData start stop := by
  unfold windowSumSq
  apply List.sum_nonneg
  intro x hx
  simp only [List.mem_map] at hx
  obtain ⟨j, _, rfl⟩ := hx
  exact mul_self_nonneg _

lemma rmsAt_empty (channelData : List ℝ) (spp i : ℕ)
    (h : min (i * spp + spp) channelData.length - i * spp = 0) :
    rmsAt channelData spp i = .nan := by
  simp [rmsAt, h, jsDivByLen, jsSqrt]

lemma rmsAt_nonempty (channelData : List ℝ) (spp i : ℕ)
    (h : 0 < min (i * spp + spp) channelData.length - i * spp) :
    rmsAt channelData spp i =
      .num (Real.sqrt (windowSumSq channelData (i * spp) (min (i * spp + spp) channelData.length) /
        ((min (i * spp + spp) channelData.length - i * spp : ℕ) : ℝ))) := by
  have hne : min (i * spp + spp) channelData.length - i * spp ≠ 0 := h.ne'
  have hnn : (0 : ℝ) ≤ windowSumSq channelData (i * spp) (min (i * spp + spp) channelData.length) /
      ((min (i * spp + spp) channelData.length - i * spp : ℕ) : ℝ) :=
    div_nonneg (windowSumSq_nonneg _ _ _) (Nat.cast_nonneg _)
  simp only [rmsAt, jsDivByLen, if_neg hne, jsSqrt, if_neg (not_lt.mpr hnn)]

lemma rmsAt_shape (channelData : List ℝ) (spp i : ℕ) :
    rmsAt channelData spp i = .nan ∨
      ∃ x : ℝ, rmsAt channelData spp i = .num x ∧ 0 ≤ x := by
  rcases Nat.eq_zero_or_pos (min (i * spp + spp) channelData.length - i * spp) with h | h
  · exact Or.inl (rmsAt_empty channelData spp i h)
  · exact Or.inr ⟨_, rmsAt_nonempty channelData spp i h, Real.sqrt_nonneg _⟩

lemma waveformData_length (channelData : List ℝ) (targetPoints : ℕ) :
    (waveformData channelData targetPoints).length = targetPoints := by
  simp [waveformData]

lemma waveformData_getD (channelData : List ℝ) (targetPoints i : ℕ) (hi : i < targetPoints) :
    (waveformData channelData targetPoints).getD i .nan =
      rmsAt channelData (samplesPerPoint channelData.length targetPoints) i := by
  unfold waveformData
  rw [List.getD_eq_getElem?_getD, List.getElem?_map, List.getElem?_range hi]
  rfl

lemma waveformData_shape (channelData : List ℝ) (targetPoints : ℕ) :
    ∀ v ∈ waveformData channelData targetPoints,
      v = .nan ∨ ∃ x : ℝ, v = .num x ∧ 0 ≤ x := by
  intro v hv
  simp only [waveformData, List.mem_map, List.mem_range] at hv
  obtain ⟨i, _, rfl⟩ := hv
  exact rmsAt_shape channelData _ i

lemma window_nonempty (channelData : List ℝ) (targetPoints i : ℕ)
    (hN : 0 < targetPoints) (hi : i < targetPoints) (hlen : targetPoints ≤ channelData.length) :
    0 < min (i * samplesPerPoint channelData.length targetPoints +
        samplesPerPoint channelData.length targetPoints) channelData.length -
      i * samplesPerPoint channelData.length targetPoints := by
  have hspp : 1 ≤ samplesPerPoint channelData.length targetPoints :=
    (Nat.one_le_div_iff hN).mpr hlen
  have hub : i * samplesPerPoint channelData.length targetPoints +
      samplesPerPoint channelData.length targetPoints ≤ channelData.length := by
    have h1 : i * samplesPerPoint channelData.length targetPoints +
        samplesPerPoint channelData.length targetPoints =
        (i + 1) * samplesPerPoint channelData.length targetPoints := by ring
    have h2 : (i + 1) * samplesPerPoint channelData.length targetPoints ≤
        targetPoints * samplesPerPoint channelData.length targetPoints :=
      Nat.mul_le_mul_right _ hi
    have h3 : targetPoints * samplesPerPoint channelData.length targetPoints ≤
        channelData.length := by
      rw [mul_comm]
      exact Nat.div_mul_le_self channelData.length targetPoints
    rw [h1]
    exact le_trans h2 h3
  rw [min_eq_left hub]
  omega

lemma waveformData_all_num (channelData : List ℝ) (targetPoints : ℕ)
    (hN : 0 < targetPoints) (hlen : targetPoints ≤ channelData.length) :
    ∀ v ∈ waveformData channelData targetPoints, ∃ x : ℝ, v = .num x ∧ 0 ≤ x := by
  intro v hv
  simp only [waveformData, List.mem_map, List.mem_range] at hv
  obtain ⟨i, hi, rfl⟩ := hv
  exact ⟨_, rmsAt_nonempty channelData _ i (window_nonempty channelData targetPoints i hN hi hlen),
    Real.sqrt_nonneg _⟩

lemma jsMax2_nan_right (a : JSNum) : jsMax2 a .nan = .nan := by
  cases a <;> rfl

lemma foldl_jsMax2_nan (l : List JSNum) : l.foldl jsMax2 .nan = .nan := by
  induction l with
  | nil => rfl
  | cons v t ih => simpa [List.foldl_cons, jsMax2] using ih

lemma foldl_jsMax2_nan_mem (l : List JSNum) (acc : JSNum) (h : JSNum.nan ∈ l) :
    l.foldl jsMax2 acc = .nan := by
  induction l generalizing acc with
  | nil => cases h
  | cons v t ih =>
    rcases List.mem_cons.mp h with hv | ht
    · rw [List.foldl_cons, ← hv, jsMax2_nan_right]
      exact foldl_jsMax2_nan t
    · rw [List.foldl_cons]
      exact ih (jsMax2 acc v) ht

lemma jsMaxList_no_nan (l : List JSNum) (m : ℝ) (hmax : jsMaxList l = .num m) :
    JSNum.nan ∉ l := by
  intro h
  rw [jsMaxList, foldl_jsMax2_nan_mem l _ h] at hmax
  exact JSNum.noConfusion hmax

lemma jsMaxList_ne_nil (l : List JSNum) (m : ℝ) (hmax : jsMaxList l = .num m) :
    l ≠ [] := by
  intro h
  rw [h] at hmax
  exact JSNum.noConfusion hmax

lemma foldl_jsMax2_num (l : List JSNum) (a : ℝ)
    (hl : ∀ v ∈ l, ∃ x : ℝ, v = .num x) :
    ∃ m : ℝ, l.foldl jsMax2 (.num a) = .num m ∧ (m = a ∨ JSNum.num m ∈ l) ∧ a ≤ m ∧
      ∀ x : ℝ, JSNum.num x ∈ l → x ≤ m := by
  induction l generalizing a with
  | nil => exact ⟨a, rfl, Or.inl rfl, le_refl a, by simp⟩
  | cons v t ih =>
    obtain ⟨y, rfl⟩ := hl v (List.mem_cons_self v t)
    obtain ⟨m, h1, h2, h3, h4⟩ :=
      ih (max a y) (fun w hw => hl w (List.mem_cons_of_mem _ hw))
    refine ⟨m, ?_, ?_, le_trans (le_max_left a y) h3, ?_⟩
    · simpa [List.foldl_cons, jsMax2] using h1
    · rcases h2 with h2 | h2
      · rcases max_choice a y with hc | hc
        · exact Or.inl (h2.trans hc)
        · exact Or.inr (by rw [h2, hc]; exact List.mem_cons_self _ t)
      · exact Or.inr (List.mem_cons_of_mem _ h2)
    · intro x hx
      rcases List.mem_cons.mp hx with hx | hx
      · have hxy : x = y := by injection hx
        exact hxy ▸ le_trans (le_max_right a y) h3
      · exact h4 x hx

lemma jsMaxList_num (l : List JSNum) (hl : ∀ v ∈ l, ∃ x : ℝ, v = .num x) (hne : l ≠ []) :
    ∃ m : ℝ, jsMaxList l = .num m ∧ JSNum.num m ∈ l ∧
      ∀ x : ℝ, JSNum.num x ∈ l → x ≤ m := by
  cases l with
  | nil => exact absurd rfl hne
  | cons v t =>
    obtain ⟨y, rfl⟩ := hl v (List.mem_cons_self v t)
    obtain ⟨m, h1, h2, h3, h4⟩ :=
      foldl_jsMax2_num t y (fun w hw => hl w (List.mem_cons_of_mem _ hw))
    refine ⟨m, ?_, ?_, ?_⟩
    · simpa [jsMaxList, List.foldl_cons, jsMax2] using h1
    · rcases h2 with rfl | h2
      · exact List.mem_cons_self _ t
      · exact List.mem_cons_of_mem _ h2
    · intro x hx
      rcases List.mem_cons.mp hx with hx | hx
      · have hxy : x = y := by injection hx
        exact hxy ▸ h3
      · exact h4 x hx

lemma mem_num_of_max (l : List JSNum) (m : ℝ)
    (hshape : ∀ v ∈ l, v = .nan ∨ ∃ x : ℝ, v = .num x ∧ 0 ≤ x)
    (hmax : jsMaxList l = .num m) :
    ∀ v ∈ l, ∃ x : ℝ, v = .num x ∧ 0 ≤ x := by
  intro v hv
  rcases hshape v hv with rfl | h
  · exact absurd hv (jsMaxList_no_nan l m hmax)
  · exact h

lemma normalizedData_length (channelData : List ℝ) (targetPoints : ℕ) :
    (normalizedData channelData targetPoints).length = targetPoints := by
  simp only [normalizedData]
  split
  · rw [List.length_map, waveformData_length]
  · exact waveformData_length channelData targetPoints

lemma normalizedData_mem_bounds (channelData : List ℝ) (targetPoints : ℕ)
    (hall : ∀ v ∈ waveformData channelData targetPoints, ∃ x : ℝ, v = .num x ∧ 0 ≤ x)
    (hne : waveformData channelData targetPoints ≠ []) :
    ∀ v ∈ normalizedData channelData targetPoints,
      ∃ x : ℝ, v = .num x ∧ 0 ≤ x ∧ x ≤ 1 := by
  obtain ⟨m, hmax, hmem, hub⟩ :=
    jsMaxList_num _ (fun v hv => (hall v hv).imp (fun x hx => hx.1)) hne
  obtain ⟨mx, hmx, hmnn⟩ := hall _ hmem
  have hm : mx = m := by injection hmx.symm
  subst hm
  by_cases hpos : (0 : ℝ) < mx
  · have hcond : jsGtZero (jsMaxList (waveformData channelData targetPoints)) = true := by
      rw [hmax]; simp [jsGtZero, hpos]
    simp only [normalizedData]
    rw [if_pos hcond]
    intro v hv
    simp only [List.mem_map] at hv
    obtain ⟨w, hw, rfl⟩ := hv
    obtain ⟨x, rfl, hx⟩ := hall w hw
    have hxm : x ≤ mx := hub x hw
    rw [hmax]
    refine ⟨x / mx, by simp [jsDivBy, ne_of_gt hpos], div_nonneg hx hpos.le,
      (div_le_one hpos).mpr hxm⟩
  · have hm0 : mx = 0 := le_antisymm (not_lt.mp hpos) hmnn
    have hcond : jsGtZero (jsMaxList (waveformData channelData targetPoints)) = false := by
      rw [hmax]; simp [jsGtZero, hpos]
    simp only [normalizedData, hcond, Bool.false_eq_true, if_false]
    intro v hv
    obtain ⟨x, rfl, hx⟩ := hall v hv
    have hxm : x ≤ mx := hub x hv
    exact ⟨x, rfl, hx, by rw [hm0] at hxm; linarith⟩

/-- Claim C6: for every input sample sequence (including the empty one) and
every positive target count, the reducer returns exactly `targetPoints`
values. -/
theorem envelope_length (channelData : List ℝ) (targetPoints : ℕ) (hN : 0 < targetPoints) :
    (normalizedData channelData targetPoints).length = targetPoints :=
  normalizedData_length channelData targetPoints

/-- Witness for C6: the empty input with one target point produces one value. -/
theorem envelope_length_witness : (normalizedData ([] : List ℝ) 1).length = 1 :=
  envelope_length [] 1 Nat.one_pos

/-- Claim C7 counterexample: on the empty input with one target point the
single window is empty, and the pre-normalization value the worker computes
is `Math.sqrt(0 / 0) = NaN`, not the `0` the claim states. -/
theorem empty_window_rms_nan_cex :
    waveformData ([] : List ℝ) 1 = [JSNum.nan] ∧ JSNum.nan ≠ JSNum.num 0 := by
  refine ⟨rfl, fun h => JSNum.noConfusion h⟩

/-- Claim C7 (amended): the `i`-th pre-normalization value is
`sqrt(windowSum / windowLength)` when the window `[i*spp, min(i*spp+spp, len))`
is nonempty, and is `NaN` (JavaScript `0/0`) — not `0` — when it is empty;
consequently the returned envelope values are reals in `[0, 1]` whenever the
input has at least `targetPoints` samples (so that no window is empty). -/
theorem rms_window_values (channelData : List ℝ) (targetPoints i : ℕ)
    (hN : 0 < targetPoints) (hi : i < targetPoints) :
    (min (i * samplesPerPoint channelData.length targetPoints +
          samplesPerPoint channelData.length targetPoints) channelData.length -
        i * samplesPerPoint channelData.length targetPoints = 0 →
      (waveformData channelData targetPoints).getD i .nan = .nan) ∧
    (0 < min (i * samplesPerPoint channelData.length targetPoints +
          samplesPerPoint channelData.length targetPoints) channelData.length -
        i * samplesPerPoint channelData.length targetPoints →
      (waveformData channelData targetPoints).getD i .nan =
        .num (Real.sqrt (windowSumSq channelData
            (i * samplesPerPoint channelData.length targetPoints)
            (min (i * samplesPerPoint channelData.length targetPoints +
              samplesPerPoint channelData.length targetPoints) channelData.length) /
          ((min (i * samplesPerPoint channelData.length targetPoints +
              samplesPerPoint channelData.length targetPoints) channelData.length -
            i * samplesPerPoint channelData.length targetPoints : ℕ) : ℝ)))) ∧
    (targetPoints ≤ channelData.length →
      ∀ v ∈ normalizedData channelData targetPoints,
        ∃ x : ℝ, v = .num x ∧ 0 ≤ x ∧ x ≤ 1) := by
  refine ⟨?_, ?_, ?_⟩
  · intro h
    rw [waveformData_getD channelData targetPoints i hi]
    exact rmsAt_empty channelData _ i h
  · intro h
    rw [waveformData_getD channelData targetPoints i hi]
    exact rmsAt_nonempty channelData _ i h
  · intro hlen
    have hne : waveformData channelData targetPoints ≠ [] := by
      intro hnil
      have hwl := waveformData_length channelData targetPoints
      rw [hnil] at hwl
      simp at hwl
      omega
    exact normalizedData_mem_bounds channelData targetPoints
      (waveformData_all_num channelData targetPoints hN hlen) hne

lemma waveformData_singleton (x : ℝ) :
    waveformData [x] 1 = [jsSqrt (jsDivByLen (x * x) 1)] := by
  have hr : List.range 1 = [0] := rfl
  simp [waveformData, samplesPerPoint, rmsAt, windowSumSq, hr,
    List.range'_one, List.getD]

lemma waveformData_singleton_one : waveformData [(1 : ℝ)] 1 = [JSNum.num 1] := by
  rw [waveformData_singleton]
  norm_num [jsDivByLen, jsSqrt, Real.sqrt_one]

lemma waveformData_singleton_zero : waveformData [(0 : ℝ)] 1 = [JSNum.num 0] := by
  rw [waveformData_singleton]
  norm_num [jsDivByLen, jsSqrt, Real.sqrt_zero]

lemma jsMaxList_singleton_num (x : ℝ) : jsMaxList [JSNum.num x] = JSNum.num x := rfl

/-- Witness for C7: on the one-sample input `[1]` with one target point the
window is nonempty and the pre-normalization value evaluates to `1`. -/
theorem rms_window_values_witness :
    (waveformData [(1 : ℝ)] 1).getD 0 JSNum.nan = JSNum.num 1 := by
  have h := (rms_window_values [(1 : ℝ)] 1 0 Nat.one_pos Nat.one_pos).2.1
    (by norm_num [samplesPerPoint])
  rw [h]
  norm_num [samplesPerPoint, windowSumSq, List.range'_one, List.getD, Real.sqrt_one]

/-- Claim C8: when the computed `maxAmplitude` is a positive number `m`,
every value is divided by `m` and the maximum of the returned envelope is
exactly `1`; when the computed `maxAmplitude` is `0`, normalization is
skipped (the raw values are returned) and all values are `0`. -/
theorem normalization_invariant (channelData : List ℝ) (targetPoints : ℕ) (m : ℝ) :
    (jsMaxList (waveformData channelData targetPoints) = .num m → 0 < m →
      normalizedData channelData targetPoints =
        (waveformData channelData targetPoints).map
          (fun val => jsDivBy val (jsMaxList (waveformData channelData targetPoints))) ∧
      jsMaxList (normalizedData channelData targetPoints) = .num 1) ∧
    (jsMaxList (waveformData channelData targetPoints) = .num 0 →
      normalizedData channelData targetPoints = waveformData channelData targetPoints ∧
      ∀ v ∈ normalizedData channelData targetPoints, v = .num 0) := by
  constructor
  · intro hmax hm
    have hcond : jsGtZero (jsMaxList (waveformData channelData targetPoints)) = true := by
      rw [hmax]
      simp only [jsGtZero]
      exact decide_eq_true hm
    have heq : normalizedData channelData targetPoints =
        (waveformData channelData targetPoints).map
          (fun val => jsDivBy val (jsMaxList (waveformData channelData targetPoints))) := by
      simp only [normalizedData]
      rw [if_pos hcond]
    refine ⟨heq, ?_⟩
    have hall : ∀ v ∈ waveformData channelData targetPoints, ∃ x : ℝ, v = .num x ∧ 0 ≤ x :=
      mem_num_of_max _ m (waveformData_shape channelData targetPoints) hmax
    have hne : waveformData channelData targetPoints ≠ [] := jsMaxList_ne_nil _ m hmax
    obtain ⟨m0, hmax0, hmem0, hub0⟩ :=
      jsMaxList_num _ (fun v hv => (hall v hv).imp fun x hx => hx.1) hne
    have hm0 : m0 = m := by
      rw [hmax0] at hmax
      injection hmax
    subst hm0
    rw [heq]
    have hallm : ∀ w ∈ (waveformData channelData targetPoints).map
        (fun val => jsDivBy val (jsMaxList (waveformData channelData targetPoints))),
        ∃ y : ℝ, w = .num y := by
      intro w hw
      simp only [List.mem_map] at hw
      obtain ⟨v, hv, rfl⟩ := hw
      obtain ⟨x, rfl, _⟩ := hall v hv
      rw [hmax0]
      exact ⟨x / m0, by simp [jsDivBy, ne_of_gt hm]⟩
    have hnem : (waveformData channelData targetPoints).map
        (fun val => jsDivBy val (jsMaxList (waveformData channelData targetPoints))) ≠ [] := by
      simpa using hne
    obtain ⟨m1, hmax1, hmem1, hub1⟩ := jsMaxList_num _ hallm hnem
    have hle : m1 ≤ 1 := by
      simp only [List.mem_map] at hmem1
      obtain ⟨v, hv, hveq⟩ := hmem1
      obtain ⟨x, rfl, _⟩ := hall v hv
      rw [hmax0] at hveq
      simp only [jsDivBy, if_neg (ne_of_gt hm)] at hveq
      have hm1x : m1 = x / m0 := by injection hveq.symm
      have hxm : x ≤ m0 := hub0 x hv
      rw [hm1x]
      exact (div_le_one hm).mpr hxm
    have hge : 1 ≤ m1 := by
      apply hub1
      have hdiv : jsDivBy (.num m0) (jsMaxList (waveformData channelData targetPoints)) =
          JSNum.num 1 := by
        rw [hmax0]
        simp [jsDivBy, ne_of_gt hm, div_self (ne_of_gt hm)]
      exact List.mem_map.mpr ⟨.num m0, hmem0, hdiv⟩
    rw [hmax1, le_antisymm hle hge]
  · intro hmax0
    have hcond : jsGtZero (jsMaxList (waveformData channelData targetPoints)) = false := by
      rw [hmax0]
      simp only [jsGtZero]
      rw [decide_eq_false (lt_irrefl 0)]
    have heq : normalizedData channelData targetPoints = waveformData channelData targetPoints := by
      simp only [normalizedData, hcond, Bool.false_eq_true, if_false]
    refine ⟨heq, ?_⟩
    have hall : ∀ v ∈ waveformData channelData targetPoints, ∃ x : ℝ, v = .num x ∧ 0 ≤ x :=
      mem_num_of_max _ 0 (waveformData_shape channelData targetPoints) hmax0
    have hne : waveformData channelData targetPoints ≠ [] := jsMaxList_ne_nil _ 0 hmax0
    obtain ⟨m0, hmaxn, hmemn, hubn⟩ :=
      jsMaxList_num _ (fun v hv => (hall v hv).imp fun x hx => hx.1) hne
    have hm0 : m0 = 0 := by
      rw [hmaxn] at hmax0
      injection hmax0
    intro v hv
    rw [heq] at hv
    obtain ⟨x, rfl, hx⟩ := hall v hv
    have hub := hubn x hv
    rw [hm0] at hub
    rw [le_antisymm hub hx]

/-- Witness for C8: on `[1]` the maximum is `1 > 0` and the normalized
envelope peaks at exactly `1`; on `[0]` the maximum is `0` and normalization
is skipped. -/
theorem normalization_invariant_witness :
    jsMaxList (normalizedData [(1 : ℝ)] 1) = JSNum.num 1 ∧
    normalizedData [(0 : ℝ)] 1 = waveformData [(0 : ℝ)] 1 := by
  constructor
  · exact ((normalization_invariant [(1 : ℝ)] 1 1).1
      (by rw [waveformData_singleton_one]; exact jsMaxList_singleton_num 1) one_pos).2
  · exact ((normalization_invariant [(0 : ℝ)] 1 0).2
      (by rw [waveformData_singleton_zero]; exact jsMaxList_singleton_num 0)).1

end WaveformWorker

namespace AudioPlayback

/-- A loop window in seconds (source: `interface LoopPoints`).  The field
`end` is a Lean keyword, so it is written `«end»`. -/
structure LoopPoints where
  start : ℚ
  «end» : ℚ
deriving DecidableEq

/-- One play-history record (source: `interface PlayHistoryEntry`);
`timestamp` is a `Date.now()` millisecond count. -/
structure PlayHistoryEntry where
  recordingId : String
  timestamp : ℤ
deriving DecidableEq

/-- The lifecycle state of the Web Audio `AudioContext` owned by the
provider: `running`, `suspended` (resumed synchronously by
`startPlayback`), or `closed`. -/
inductive CtxState where
  | running
  | suspended
  | closed
deriving DecidableEq

/-- An `AudioBufferSourceNode` as far as the embedding needs it: the
`offset` and optional `duration` arguments of `source.start(0, offset,
playDuration)`. -/
structure SourceNode where
  offset : ℚ
  playDuration : Option ℚ
deriving DecidableEq

/-- A decoded `AudioBuffer`: only its `duration` is consulted. -/
structure AudioBuffer where
  duration : ℚ
deriving DecidableEq

/-- The complete mutable state of `AudioPlaybackProvider`: the React state
values (`playingRecordingId`, `isLooping`, `currentTime`, `duration`,
`playHistory`) and the refs (`audioContextRef` … `crossfadeScheduledRef`).
`gainNode` and `crossfadeGainNode` record whether the corresponding ref
holds a node; `animationFrame` records whether `animationFrameRef` holds a
scheduled callback handle. -/
structure PlaybackState where
  playingRecordingId : Option String
  isLooping : Bool
  currentTime : ℚ
  duration : ℚ
  playHistory : List PlayHistoryEntry
  audioContext : Option CtxState
  audioBuffer : Option AudioBuffer
  sourceNode : Option SourceNode
  nextSource : Option SourceNode
  gainNode : Bool
  crossfadeGainNode : Bool
  startTime : ℚ
  pauseTime : ℚ
  animationFrame : Bool
  loopPoints : Option LoopPoints
  isLoopingRef : Bool
  crossfadeScheduled : Bool
deriving DecidableEq

/-- The `stopPlayback` callback: stop and drop both source nodes, cancel
the pending animation frame, clear the crossfade flag.  It touches nothing
else — in particular it leaves `playingRecordingId`, the `AudioContext`
and the gain node as they are. -/
def stopPlayback (s : PlaybackState) : PlaybackState :=
  { s with sourceNode := none, nextSource := none,
           animationFrame := false, crossfadeScheduled := false }

/-- The `startPlayback(startFrom, fadeIn)` callback.  It returns early when
the context, buffer or gain node is missing or the context is closed;
otherwise it resumes a suspended context, stops current sources, creates a
fresh source and crossfade gain (with `CROSSFADE_DURATION = 0` the gain is
`1` whether or not `fadeIn` is set), clamps the offset up to
`loopPoints.start` and bounds the play duration by `loopPoints.end` when
looping with loop points, starts the source and resets the position clock
(`startTimeRef := audioContext.currentTime`, `pauseTimeRef := offset`). -/
def startPlayback (s : PlaybackState) (now : ℚ) (startFrom : ℚ) (fadeIn : Bool) :
    PlaybackState :=
  match s.audioContext, s.audioBuffer, s.gainNode with
  | some ctx, some _, true =>
    if ctx = .closed then s
    else
      let s1 := stopPlayback { s with audioContext := some .running }
      let offset :=
        match s1.isLoopingRef, s1.loopPoints with
        | true, some lp => if startFrom ≥ lp.start then startFrom else lp.start
        | _, _ => startFrom
      let playDuration : Option ℚ :=
        match s1.isLoopingRef, s1.loopPoints with
        | true, some lp => some (lp.«end» - offset)
        | _, _ => none
      { s1 with sourceNode := some ⟨offset, playDuration⟩,
                crossfadeGainNode := true,
                startTime := now, pauseTime := offset,
                crossfadeScheduled := false }
  | _, _, _ => s

/-- The `updatePlayback` tick callback, at device clock `now =
audioContext.currentTime`.  It computes `newTime = pauseTime + (now -
startTime)`, publishes it as `currentTime`, then: in loop mode with loop
points it restarts playback at `loopPoints.start` once `newTime ≥
loopPoints.end` and schedules the next frame; in normal mode it stops and
clears the session once `newTime ≥ audioBuffer.duration` (without
scheduling another frame); otherwise it just schedules the next frame. -/
def updatePlayback (s : PlaybackState) (now : ℚ) : PlaybackState :=
  match s.audioContext, s.audioBuffer with
  | some _, some buf =>
    let elapsed := now - s.startTime
    let newTime := s.pauseTime + elapsed
    let s1 := { s with currentTime := newTime }
    match s.isLoopingRef, s.loopPoints with
    | true, some lp =>
      if newTime ≥ lp.«end» then
        let s2 := startPlayback (stopPlayback s1) now lp.start false
        { s2 with animationFrame := true }
      else
        { s1 with animationFrame := true }
    | _, _ =>
      if s.isLoopingRef = false ∧ newTime ≥ buf.duration then
        { stopPlayback s1 with playingRecordingId := none, isLooping := false,
                               currentTime := 0, isLoopingRef := false }
      else
        { s1 with animationFrame := true }
  | _, _ => s

/-- The `setPlayHistory` updater run on a fresh start: drop older entries
for the same recording, push the new `(recordingId, Date.now())` entry at
the front, keep at most 1000 entries. -/
def addHistoryEntry (prev : List PlayHistoryEntry) (recordingId : String) (nowMs : ℤ) :
    List PlayHistoryEntry :=
  let filtered := prev.filter (fun e => e.recordingId ≠ recordingId)
  (({ recordingId := recordingId, timestamp := nowMs } : PlayHistoryEntry) :: filtered).take 1000

/-- Close the current `AudioContext` if one is present and not already
closed (`await audioContextRef.current.close()`); the ref keeps pointing at
the closed context until it is overwritten. -/
def closeContext (s : PlaybackState) : PlaybackState :=
  match s.audioContext with
  | some ctx => if ctx ≠ .closed then { s with audioContext := some .closed } else s
  | none => s

/-- The `playRecording(recordingId, audioBlob, loop, loopPoints)` call.
The decode of the blob is passed in as `decoded` (`.ok buffer` for a
successful `decodeAudioData`, `.error ()` for a decode failure), `now` is
the device clock and `nowMs` is `Date.now()`.  Branches follow the source:
toggle-stop when the same recording is already playing with the same loop
flag; otherwise stop current playback, close the old context, create a new
context, and either finish the fresh start (on decode success) or fall
into the catch block (on decode failure). -/
def playRecording (s : PlaybackState) (recordingId : String) (loop : Bool)
    (loopPoints : Option LoopPoints) (decoded : Except Unit AudioBuffer)
    (now : ℚ) (nowMs : ℤ) : PlaybackState :=
  if s.playingRecordingId = some recordingId ∧ s.isLooping = loop then
    let s1 := stopPlayback s
    { s1 with audioContext := none, audioBuffer := none, gainNode := false,
              playingRecordingId := none, isLooping := false, currentTime := 0,
              duration := 0, isLoopingRef := false }
  else
    let s1 := closeContext (stopPlayback s)
    match decoded with
    | .ok audioBuffer =>
      let s2 := { s1 with audioContext := some .running,
                          audioBuffer := some audioBuffer,
                          gainNode := true,
                          loopPoints := loopPoints,
                          isLoopingRef := loop,
                          playingRecordingId := some recordingId,
                          isLooping := loop,
                          duration := audioBuffer.duration,
                          currentTime := 0,
                          playHistory := addHistoryEntry s1.playHistory recordingId nowMs }
      let startFrom :=
        match loop, loopPoints with
        | true, some lp => lp.start
        | _, _ => 0
      let s3 := startPlayback s2 now startFrom false
      { s3 with animationFrame := true }
    | .error _ =>
      let s2 := { s1 with audioContext := some .running }
      { s2 with isLoopingRef := false, playingRecordingId := none, isLooping := false }

/-- The `isPlaying(recordingId, checkLoop?)` query: id-and-loop match when
`checkLoop` is supplied, id match alone when it is omitted. -/
def isPlaying (s : PlaybackState) (recordingId : String) (checkLoop : Option Bool) : Bool :=
  match checkLoop with
  | some cl => decide (s.playingRecordingId = some recordingId ∧ s.isLooping = cl)
  | none => decide (s.playingRecordingId = some recordingId)

/-- `Array.from(new Set(l))`: deduplication keeping first occurrences in
order. -/
def jsSetToArray (l : List String) : List String :=
  l.foldl (fun acc x => if x ∈ acc then acc else acc ++ [x]) []

/-- The `recentlyPlayedRecordings` memo: distinct recording ids of history
entries whose timestamp is within the trailing seven days. -/
def recentlyPlayedRecordings (playHistory : List PlayHistoryEntry) (nowMs : ℤ) :
    List String :=
  let sevenDaysAgo := nowMs - 7 * 24 * 60 * 60 * 1000
  let recentEntries := playHistory.filter (fun e => sevenDaysAgo < e.timestamp)
  jsSetToArray (recentEntries.map (fun e => e.recordingId))

lemma startPlayback_currentTime (s : PlaybackState) (now startFrom : ℚ) (fadeIn : Bool) :
    (startPlayback s now startFrom fadeIn).currentTime = s.currentTime := by
  unfold startPlayback
  split
  · split <;> rfl
  · rfl

lemma startPlayback_playHistory (s : PlaybackState) (now startFrom : ℚ) (fadeIn : Bool) :
    (startPlayback s now startFrom fadeIn).playHistory = s.playHistory := by
  unfold startPlayback
  split
  · split <;> rfl
  · rfl

lemma startPlayback_playingRecordingId (s : PlaybackState) (now startFrom : ℚ) (fadeIn : Bool) :
    (startPlayback s now startFrom fadeIn).playingRecordingId = s.playingRecordingId := by
  unfold startPlayback
  split
  · split <;> rfl
  · rfl

lemma startPlayback_audioBuffer (s : PlaybackState) (now startFrom : ℚ) (fadeIn : Bool) :
    (startPlayback s now startFrom fadeIn).audioBuffer = s.audioBuffer := by
  unfold startPlayback
  split
  · split <;> rfl
  · rfl

lemma startPlayback_isLoopingRef (s : PlaybackState) (now startFrom : ℚ) (fadeIn : Bool) :
    (startPlayback s now startFrom fadeIn).isLoopingRef = s.isLoopingRef := by
  unfold startPlayback
  split
  · split <;> rfl
  · rfl

lemma startPlayback_loopPoints (s : PlaybackState) (now startFrom : ℚ) (fadeIn : Bool) :
    (startPlayback s now startFrom fadeIn).loopPoints = s.loopPoints := by
  unfold startPlayback
  split
  · split <;> rfl
  · rfl

/-- In loop mode with loop points and a live context and buffer, the tick
always publishes the computed position `pauseTime + (now - startTime)` as
`currentTime` (a same-tick loop restart does not overwrite it). -/
lemma updatePlayback_loop_currentTime (s : PlaybackState) (now : ℚ) (ctx : CtxState)
    (buf : AudioBuffer) (lp : LoopPoints)
    (hctx : s.audioContext = some ctx) (hbuf : s.audioBuffer = some buf)
    (hl : s.isLoopingRef = true) (hlp : s.loopPoints = some lp) :
    (updatePlayback s now).currentTime = s.pauseTime + (now - s.startTime) := by
  simp only [updatePlayback, hctx, hbuf, hl, hlp]
  split
  · simp [startPlayback_currentTime, stopPlayback]
  · rfl

/-- A state with no session at all (fresh mount). -/
def demoIdle : PlaybackState :=
  { playingRecordingId := none, isLooping := false, currentTime := 0, duration := 0,
    playHistory := [], audioContext := none, audioBuffer := none, sourceNode := none,
    nextSource := none, gainNode := false, crossfadeGainNode := false, startTime := 0,
    pauseTime := 0, animationFrame := true, loopPoints := none, isLoopingRef := false,
    crossfadeScheduled := false }

/-- A state with a live looping session for recording `A`: a 10-second
buffer, loop points `{start: 2, end: 5}`, clock origin 100 and pause
offset 2. -/
def demoActive : PlaybackState :=
  { playingRecordingId := some ("A"), isLooping := true, currentTime := 2, duration := 10,
    playHistory := [], audioContext := some .running, audioBuffer := some ⟨10⟩,
    sourceNode := some ⟨2, some 3⟩, nextSource := none, gainNode := true,
    crossfadeGainNode := true, startTime := 100, pauseTime := 2, animationFrame := true,
    loopPoints := some ⟨2, 5⟩, isLoopingRef := true, crossfadeScheduled := false }

/-- Claim C10: when a source is (re)started while `isLoopingRef` is set and
loop points exist, the effective offset is `max(startFrom, loopPoints.start)`
and the source is started with play duration `loopPoints.end - offset`, so
the scheduled source range ends exactly at `loopPoints.end`. -/
theorem loop_source_scheduling (s : PlaybackState) (now startFrom : ℚ) (ctx : CtxState)
    (buf : AudioBuffer) (lp : LoopPoints)
    (hctx : s.audioContext = some ctx) (hcl : ctx ≠ .closed)
    (hbuf : s.audioBuffer = some buf) (hg : s.gainNode = true)
    (hl : s.isLoopingRef = true) (hlp : s.loopPoints = some lp) :
    (startPlayback s now startFrom false).sourceNode =
      some ⟨max startFrom lp.start, some (lp.«end» - max startFrom lp.start)⟩ ∧
    (startPlayback s now startFrom false).pauseTime = max startFrom lp.start ∧
    max startFrom lp.start + (lp.«end» - max startFrom lp.start) = lp.«end» := by
  have hoff : (if startFrom ≥ lp.start then startFrom else lp.start) = max startFrom lp.start := by
    rw [max_comm, max_def]
  refine ⟨?_, ?_, by ring⟩
  · simp only [startPlayback, hctx, hbuf, hg, if_neg hcl, stopPlayback, hl, hlp, hoff]
  · simp only [startPlayback, hctx, hbuf, hg, if_neg hcl, stopPlayback, hl, hlp, hoff]

/-- Witness for C10: restarting the demo session from offset `3` schedules
the source at offset `3` with play duration `2` (ending at the loop end `5`). -/
theorem loop_source_scheduling_witness :
    (startPlayback demoActive 50 3 false).sourceNode = some ⟨3, some 2⟩ ∧
    (startPlayback demoActive 50 3 false).pauseTime = 3 := by
  have h := loop_source_scheduling demoActive 50 3 .running ⟨10⟩ ⟨2, 5⟩ rfl
    (by decide) rfl rfl rfl rfl
  have hm : max (3 : ℚ) 2 = 3 := max_eq_left (by norm_num)
  refine ⟨?_, ?_⟩
  · rw [h.1, hm]
    norm_num
  · rw [h.2.1, hm]

/-- Claim C3 counterexample: `stopPlayback` on a live session silences the
sources but does not destroy the session — `isPlaying("A")` is still true
afterwards and the decoding `AudioContext` is still open, contradicting the
claim that `stop()` tears the session down and makes `isPlaying(id)` false
for every id. -/
theorem stop_not_full_teardown_cex :
    isPlaying (stopPlayback demoActive) ("A") none = true ∧
    (stopPlayback demoActive).audioContext = some CtxState.running ∧
    (stopPlayback demoActive).playingRecordingId = some ("A") := by
  decide

/-- Claim C3 (amended): `stopPlayback` stops and drops both output sources,
cancels the pending tick and clears the crossfade flag, and it is
idempotent; but it is only a partial teardown — it leaves
`playingRecordingId`, the `AudioContext`, the decoded buffer and the gain
node untouched, so `isPlaying(id)` can remain true and the decoding context
stays open. -/
theorem stop_partial_teardown (s : PlaybackState) :
    (stopPlayback s).sourceNode = none ∧
    (stopPlayback s).nextSource = none ∧
    (stopPlayback s).animationFrame = false ∧
    (stopPlayback s).crossfadeScheduled = false ∧
    stopPlayback (stopPlayback s) = stopPlayback s ∧
    (stopPlayback s).playingRecordingId = s.playingRecordingId ∧
    (stopPlayback s).audioContext = s.audioContext ∧
    (stopPlayback s).audioBuffer = s.audioBuffer ∧
    (stopPlayback s).gainNode = s.gainNode := by
  exact ⟨rfl, rfl, rfl, rfl, rfl, rfl, rfl, rfl, rfl⟩

/-- Claim C2: calling `playRecording` for the recording that is already
playing with the same loop flag is interpreted as stop: sources are
stopped, the context is closed and dropped, the tick is cancelled, all
session state is cleared, no new session is started, and `isPlaying` is
false for every id afterwards. -/
theorem toggle_stop (s : PlaybackState) (recordingId : String) (loop : Bool)
    (loopPoints : Option LoopPoints) (decoded : Except Unit AudioBuffer)
    (now : ℚ) (nowMs : ℤ)
    (hid : s.playingRecordingId = some recordingId) (hloop : s.isLooping = loop) :
    (playRecording s recordingId loop loopPoints decoded now nowMs).playingRecordingId = none ∧
    (playRecording s recordingId loop loopPoints decoded now nowMs).sourceNode = none ∧
    (playRecording s recordingId loop loopPoints decoded now nowMs).nextSource = none ∧
    (playRecording s recordingId loop loopPoints decoded now nowMs).audioContext = none ∧
    (playRecording s recordingId loop loopPoints decoded now nowMs).audioBuffer = none ∧
    (playRecording s recordingId loop loopPoints decoded now nowMs).gainNode = false ∧
    (playRecording s recordingId loop loopPoints decoded now nowMs).animationFrame = false ∧
    (playRecording s recordingId loop loopPoints decoded now nowMs).currentTime = 0 ∧
    (playRecording s recordingId loop loopPoints decoded now nowMs).duration = 0 ∧
    (playRecording s recordingId loop loopPoints decoded now nowMs).isLooping = false ∧
    (playRecording s recordingId loop loopPoints decoded now nowMs).isLoopingRef = false ∧
    ∀ recId cl, isPlaying (playRecording s recordingId loop loopPoints decoded now nowMs)
      recId cl = false := by
  have hcond : s.playingRecordingId = some recordingId ∧ s.isLooping = loop := ⟨hid, hloop⟩
  unfold playRecording
  rw [if_pos hcond]
  refine ⟨rfl, rfl, rfl, rfl, rfl, rfl, rfl, rfl, rfl, rfl, rfl, ?_⟩
  intro recId cl
  cases cl <;> simp [isPlaying, stopPlayback]

/-- Witness for C2: toggling the demo session for `A` leaves an idle,
resource-free state with `isPlaying("A")` false. -/
theorem toggle_stop_witness :
    (playRecording demoActive ("A") true none (.error ()) 0 0).playingRecordingId = none ∧
    (playRecording demoActive ("A") true none (.error ()) 0 0).audioContext = none ∧
    isPlaying (playRecording demoActive ("A") true none (.error ()) 0 0) ("A") none = false := by
  have h := toggle_stop demoActive ("A") true none (.error ()) 0 0 rfl rfl
  exact ⟨h.1, h.2.2.2.1, h.2.2.2.2.2.2.2.2.2.2.2 ("A") none⟩

lemma closeContext_sourceNode (s : PlaybackState) :
    (closeContext s).sourceNode = s.sourceNode := by
  unfold closeContext
  split
  · split <;> rfl
  · rfl

lemma closeContext_nextSource (s : PlaybackState) :
    (closeContext s).nextSource = s.nextSource := by
  unfold closeContext
  split
  · split <;> rfl
  · rfl

lemma closeContext_animationFrame (s : PlaybackState) :
    (closeContext s).animationFrame = s.animationFrame := by
  unfold closeContext
  split
  · split <;> rfl
  · rfl

lemma closeContext_playHistory (s : PlaybackState) :
    (closeContext s).playHistory = s.playHistory := by
  unfold closeContext
  split
  · split <;> rfl
  · rfl

/-- Claim C4 counterexample: starting from the idle state, a `playRecording`
call whose decode fails leaves the `AudioContext` created for the attempt
open in `audioContextRef` — the catch block never closes it — contradicting
the claim that all partially-acquired resources, including that context,
are released. -/
theorem decode_failure_leaks_context_cex :
    (playRecording demoIdle ("A") false none (.error ()) 0 0).audioContext =
      some CtxState.running := by
  decide

/-- Claim C4 (amended): on a decode failure no session is created —
`playingRecordingId` is cleared, no source node exists, the tick is not
scheduled, and `isPlaying` is false for every id — but the `AudioContext`
created for the attempt is left open rather than released, and the error is
only logged, not reported to the caller. -/
theorem decode_failure_containment (s : PlaybackState) (recordingId : String) (loop : Bool)
    (loopPoints : Option LoopPoints) (now : ℚ) (nowMs : ℤ)
    (htog : ¬(s.playingRecordingId = some recordingId ∧ s.isLooping = loop)) :
    (playRecording s recordingId loop loopPoints (.error ()) now nowMs).playingRecordingId =
      none ∧
    (playRecording s recordingId loop loopPoints (.error ()) now nowMs).sourceNode = none ∧
    (playRecording s recordingId loop loopPoints (.error ()) now nowMs).nextSource = none ∧
    (playRecording s recordingId loop loopPoints (.error ()) now nowMs).animationFrame = false ∧
    (playRecording s recordingId loop loopPoints (.error ()) now nowMs).isLooping = false ∧
    (playRecording s recordingId loop loopPoints (.error ()) now nowMs).isLoopingRef = false ∧
    (∀ recId cl,
      isPlaying (playRecording s recordingId loop loopPoints (.error ()) now nowMs)
        recId cl = false) ∧
    (playRecording s recordingId loop loopPoints (.error ()) now nowMs).audioContext =
      some CtxState.running := by
  unfold playRecording
  rw [if_neg htog]
  refine ⟨rfl, ?_, ?_, ?_, rfl, rfl, ?_, rfl⟩
  · show (closeContext (stopPlayback s)).sourceNode = none
    rw [closeContext_sourceNode]
    rfl
  · show (closeContext (stopPlayback s)).nextSource = none
    rw [closeContext_nextSource]
    rfl
  · show (closeContext (stopPlayback s)).animationFrame = false
    rw [closeContext_animationFrame]
    rfl
  · intro recId cl
    cases cl <;> rfl

/-- Witness for C4: from the idle state, a failed decode for `A` leaves no
session and `isPlaying("A")` false (while the context stays open, per the
counterexample). -/
theorem decode_failure_containment_witness :
    (playRecording demoIdle ("A") false none (.error ()) 0 0).playingRecordingId = none ∧
    isPlaying (playRecording demoIdle ("A") false none (.error ()) 0 0) ("A") none = false := by
  have h := decode_failure_containment demoIdle ("A") false none 0 0 (by decide)
  exact ⟨h.1, h.2.2.2.2.2.2.1 ("A") none⟩

lemma foldl_dedup_mem (l acc : List String) (x : String) :
    x ∈ l.foldl (fun acc x => if x ∈ acc then acc else acc ++ [x]) acc ↔
      x ∈ acc ∨ x ∈ l := by
  induction l generalizing acc with
  | nil => simp
  | cons y t ih =>
    rw [List.foldl_cons, ih]
    by_cases hy : y ∈ acc
    · rw [if_pos hy]
      simp only [List.mem_cons]
      constructor
      · rintro (h | h)
        exacts [Or.inl h, Or.inr (Or.inr h)]
      · rintro (h | rfl | h)
        exacts [Or.inl h, Or.inl hy, Or.inr h]
    · rw [if_neg hy]
      simp only [List.mem_append, List.mem_singleton, List.mem_cons, List.not_mem_nil,
        or_false]
      rw [or_assoc]

lemma jsSetToArray_mem (l : List String) (x : String) :
    x ∈ jsSetToArray l ↔ x ∈ l := by
  unfold jsSetToArray
  rw [foldl_dedup_mem]
  simp

lemma recentlyPlayed_mem (hist : List PlayHistoryEntry) (nowMs : ℤ) (r : String) :
    r ∈ recentlyPlayedRecordings hist nowMs ↔
      ∃ e ∈ hist, e.recordingId = r ∧ nowMs - 7 * 24 * 60 * 60 * 1000 < e.timestamp := by
  unfold recentlyPlayedRecordings
  rw [jsSetToArray_mem]
  simp only [List.mem_map, List.mem_filter]
  constructor
  · rintro ⟨e, ⟨he, ht⟩, rfl⟩
    exact ⟨e, he, rfl, by simpa using ht⟩
  · rintro ⟨e, he, rfl, ht⟩
    exact ⟨e, ⟨he, by simpa using ht⟩, rfl⟩

lemma addHistoryEntry_mem (prev : List PlayHistoryEntry) (recordingId : String) (nowMs : ℤ) :
    ({ recordingId := recordingId, timestamp := nowMs } : PlayHistoryEntry) ∈
      addHistoryEntry prev recordingId nowMs := by
  unfold addHistoryEntry
  have h1000 : (1000 : ℕ) = 999 + 1 := rfl
  rw [h1000, List.take_succ_cons]
  exact List.mem_cons_self _ _

lemma playRecording_ok_playHistory (s : PlaybackState) (recordingId : String) (loop : Bool)
    (loopPoints : Option LoopPoints) (buf : AudioBuffer) (now : ℚ) (nowMs : ℤ)
    (htog : ¬(s.playingRecordingId = some recordingId ∧ s.isLooping = loop)) :
    (playRecording s recordingId loop loopPoints (.ok buf) now nowMs).playHistory =
      addHistoryEntry s.playHistory recordingId nowMs := by
  unfold playRecording
  rw [if_neg htog]
  simp [startPlayback_playHistory, closeContext_playHistory, stopPlayback]

/-- Claim C9: a successful fresh start pushes a `(recordingId, Date.now())`
entry into the play history, and the recently-played set contains exactly
the distinct recording ids of history entries whose timestamp lies in the
trailing seven-day window. -/
theorem play_history_recording (s : PlaybackState) (recordingId : String) (loop : Bool)
    (loopPoints : Option LoopPoints) (buf : AudioBuffer) (now : ℚ) (nowMs : ℤ)
    (hist : List PlayHistoryEntry) (histNowMs : ℤ) (r : String)
    (htog : ¬(s.playingRecordingId = some recordingId ∧ s.isLooping = loop)) :
    ({ recordingId := recordingId, timestamp := nowMs } : PlayHistoryEntry) ∈
      (playRecording s recordingId loop loopPoints (.ok buf) now nowMs).playHistory ∧
    (r ∈ recentlyPlayedRecordings hist histNowMs ↔
      ∃ e ∈ hist, e.recordingId = r ∧
        histNowMs - 7 * 24 * 60 * 60 * 1000 < e.timestamp) := by
  refine ⟨?_, recentlyPlayed_mem hist histNowMs r⟩
  rw [playRecording_ok_playHistory s recordingId loop loopPoints buf now nowMs htog]
  exact addHistoryEntry_mem s.playHistory recordingId nowMs

/-- Witness for C9: a fresh start from the idle state at `Date.now() = 5`
records the entry `(A, 5)`, and with `now = 6` the id `A` is in the
recently-played set derived from that history. -/
theorem play_history_recording_witness :
    ({ recordingId := ("A"), timestamp := (5 : ℤ) } : PlayHistoryEntry) ∈
      (playRecording demoIdle ("A") false none (.ok ⟨10⟩) 0 5).playHistory ∧
    ("A") ∈ recentlyPlayedRecordings
      [{ recordingId := ("A"), timestamp := (5 : ℤ) }] 6 := by
  have h := play_history_recording demoIdle ("A") false none ⟨10⟩ 0 5
    [{ recordingId := ("A"), timestamp := (5 : ℤ) }] 6 ("A") (by decide)
  refine ⟨h.1, h.2.mpr ⟨_, List.mem_cons_self _ _, rfl, by norm_num⟩⟩

/-- Claim C1: each tick computes `currentPosition = pauseOffset +
(deviceClockNow - clockOrigin)` and publishes it (only the normal-mode stop
overwrites it with `0`).  In loop mode with loop points, a tick observing
`currentPosition ≥ loopPoints.end` stops the current source and restarts at
`loopPoints.start` in the same tick, resetting the clock origin and pause
offset, so any later tick closer than one loop length observes a position in
`[loopPoints.start, loopPoints.end)`, and the tick loop continues.  In
normal mode, a tick observing `currentPosition ≥ duration` stops the
source, destroys the session identity, cancels the tick source, and makes
`isPlaying` false for every id. -/
theorem loop_boundary_tick (s : PlaybackState) (now : ℚ) (ctx : CtxState)
    (buf : AudioBuffer) (lp : LoopPoints)
    (hctx : s.audioContext = some ctx) (hbuf : s.audioBuffer = some buf) :
    ((updatePlayback s now).currentTime = s.pauseTime + (now - s.startTime) ∨
      ((updatePlayback s now).currentTime = 0 ∧
        (updatePlayback s now).playingRecordingId = none)) ∧
    (s.isLoopingRef = true → s.loopPoints = some lp →
      lp.«end» ≤ s.pauseTime + (now - s.startTime) →
      ctx ≠ .closed → s.gainNode = true →
      (updatePlayback s now).currentTime = s.pauseTime + (now - s.startTime) ∧
      (updatePlayback s now).sourceNode =
        some ⟨lp.start, some (lp.«end» - lp.start)⟩ ∧
      (updatePlayback s now).startTime = now ∧
      (updatePlayback s now).pauseTime = lp.start ∧
      (updatePlayback s now).animationFrame = true ∧
      (updatePlayback s now).playingRecordingId = s.playingRecordingId ∧
      (∀ now2 : ℚ, now ≤ now2 → now2 - now < lp.«end» - lp.start →
        lp.start ≤ (updatePlayback (updatePlayback s now) now2).currentTime ∧
        (updatePlayback (updatePlayback s now) now2).currentTime < lp.«end»)) ∧
    (s.isLoopingRef = false → buf.duration ≤ s.pauseTime + (now - s.startTime) →
      (updatePlayback s now).playingRecordingId = none ∧
      (updatePlayback s now).sourceNode = none ∧
      (updatePlayback s now).animationFrame = false ∧
      (updatePlayback s now).currentTime = 0 ∧
      ∀ recId cl, isPlaying (updatePlayback s now) recId cl = false) := by
  refine ⟨?_, ?_, ?_⟩
  · cases hL : s.isLoopingRef with
    | false =>
      simp only [updatePlayback, hctx, hbuf, hL]
      split_ifs with hcond
      · exact Or.inr ⟨rfl, rfl⟩
      · exact Or.inl rfl
    | true =>
      cases hP : s.loopPoints with
      | none =>
        simp only [updatePlayback, hctx, hbuf, hL, hP]
        rw [if_neg (by simp)]
        exact Or.inl rfl
      | some lp2 =>
        simp only [updatePlayback, hctx, hbuf, hL, hP]
        split_ifs with hcond
        · exact Or.inl (by simp [startPlayback_currentTime, stopPlayback])
        · exact Or.inl rfl
  · intro hl hlp hge hcl hg
    have key : updatePlayback s now =
        { startPlayback
            (stopPlayback { s with currentTime := s.pauseTime + (now - s.startTime) })
            now lp.start false with animationFrame := true } := by
      simp only [updatePlayback, hctx, hbuf, hl, hlp]
      split_ifs with hcond
      · rfl
      · exact absurd hge hcond
    refine ⟨?_, ?_, ?_, ?_, ?_, ?_, ?_⟩
    · rw [key]
      simp [startPlayback_currentTime, stopPlayback]
    · rw [key]
      simp [startPlayback, stopPlayback, hctx, hbuf, hg, hcl, hl, hlp]
    · rw [key]
      simp [startPlayback, stopPlayback, hctx, hbuf, hg, hcl, hl, hlp]
    · rw [key]
      simp [startPlayback, stopPlayback, hctx, hbuf, hg, hcl, hl, hlp]
    · rw [key]
    · rw [key]
      simp [startPlayback_playingRecordingId, stopPlayback]
    · intro now2 h1 h2
      have hA : (updatePlayback s now).audioContext = some CtxState.running := by
        rw [key]
        simp [startPlayback, stopPlayback, hctx, hbuf, hg, hcl]
      have hB : (updatePlayback s now).audioBuffer = some buf := by
        rw [key]
        simp [startPlayback_audioBuffer, stopPlayback, hbuf]
      have hL2 : (updatePlayback s now).isLoopingRef = true := by
        rw [key]
        simp [startPlayback_isLoopingRef, stopPlayback, hl]
      have hP2 : (updatePlayback s now).loopPoints = some lp := by
        rw [key]
        simp [startPlayback_loopPoints, stopPlayback, hlp]
      have hpt : (updatePlayback s now).pauseTime = lp.start := by
        rw [key]
        simp [startPlayback, stopPlayback, hctx, hbuf, hg, hcl, hl, hlp]
      have hst : (updatePlayback s now).startTime = now := by
        rw [key]
        simp [startPlayback, stopPlayback, hctx, hbuf, hg, hcl, hl, hlp]
      have hct := updatePlayback_loop_currentTime (updatePlayback s now) now2
        CtxState.running buf lp hA hB hL2 hP2
      rw [hct, hpt, hst]
      constructor
      · linarith
      · linarith
  · intro hlf hge2
    have key2 : updatePlayback s now =
        { stopPlayback { s with currentTime := s.pauseTime + (now - s.startTime) } with
            playingRecordingId := none, isLooping := false, currentTime := 0,
            isLoopingRef := false } := by
      simp only [updatePlayback, hctx, hbuf, hlf]
      split_ifs with hcond
      · rfl
      · exact absurd ⟨trivial, hge2⟩ hcond
    refine ⟨?_, ?_, ?_, ?_, ?_⟩
    · rw [key2]
    · rw [key2]
      rfl
    · rw [key2]
      rfl
    · rw [key2]
    · intro recId cl
      rw [key2]
      cases cl <;> rfl

/-- Witness for C1: on the demo session (loop points `{2, 5}`, clock origin
`100`, pause offset `2`) a tick at device time `103.5` observes position
`5.5 ≥ 5`, restarts at the loop start, and the next tick at `104` observes
position `2.5`, inside `[2, 5)`. -/
theorem loop_boundary_tick_witness :
    (updatePlayback demoActive (207/2)).pauseTime = 2 ∧
    (updatePlayback demoActive (207/2)).startTime = 207/2 ∧
    (updatePlayback demoActive (207/2)).animationFrame = true ∧
    2 ≤ (updatePlayback (updatePlayback demoActive (207/2)) 104).currentTime ∧
    (updatePlayback (updatePlayback demoActive (207/2)) 104).currentTime < 5 := by
  have h := (loop_boundary_tick demoActive (207/2) CtxState.running ⟨10⟩ ⟨2, 5⟩
    rfl rfl).2.1 rfl rfl (by norm_num [demoActive]) (by decide) rfl
  obtain ⟨hct, hsn, hst, hpt, haf, hpid, hnext⟩ := h
  have h2 := hnext 104 (by norm_num) (by norm_num)
  exact ⟨hpt, hst, haf, h2.1, h2.2⟩

end AudioPlayback

namespace LoopEditor

open AudioPlayback (LoopPoints)

/-- `MIN_LOOP_DURATION = 0.1` seconds. -/
def MIN_LOOP_DURATION : ℚ := 1 / 10

/-- Which marker is being dragged (`dragging : 'start' | 'end'`). -/
inductive Marker where
  | start
  | «end»

/-- `handleMouseMove` while dragging a marker: the pointer offset is
clamped to the waveform box (`clickPosition = max(0, min(1, x / width))`),
converted to a time, and the dragged bound is clamped so that the pair
keeps at least `MIN_LOOP_DURATION` of width; `handleTouchMove` performs
the identical computation on the first touch point. -/
def handleMouseMove (dragging : Marker) (tempLoopPoints : LoopPoints)
    (duration x width : ℚ) : LoopPoints :=
  let clickPosition := max 0 (min 1 (x / width))
  let newTime := clickPosition * duration
  match dragging with
  | .start =>
    { tempLoopPoints with
        start := min newTime (tempLoopPoints.«end» - MIN_LOOP_DURATION) }
  | .«end» =>
    { tempLoopPoints with
        «end» := max newTime (tempLoopPoints.start + MIN_LOOP_DURATION) }

/-- `applyStartTime`: the minute and second fields are parsed with
`parseFloat(x) || 0` (modelled by `Option.getD 0`, so the total is never
`NaN` and the `isNaN` guard is vacuous); a total outside `[0, duration]`
is rejected — the input fields are reset and the points left unchanged —
while an in-range total is clamped below `end - MIN_LOOP_DURATION`. -/
def applyStartTime (tempLoopPoints : LoopPoints) (duration : ℚ)
    (startMinInput startSecInput : Option ℚ) : LoopPoints :=
  let mins := startMinInput.getD 0
  let secs := startSecInput.getD 0
  let newStart := mins * 60 + secs
  if newStart < 0 ∨ newStart > duration then tempLoopPoints
  else
    { tempLoopPoints with
        start := min newStart (tempLoopPoints.«end» - MIN_LOOP_DURATION) }

/-- `applyEndTime`, symmetric to `applyStartTime`: an out-of-range total is
rejected, an in-range total is clamped above `start + MIN_LOOP_DURATION`. -/
def applyEndTime (tempLoopPoints : LoopPoints) (duration : ℚ)
    (endMinInput endSecInput : Option ℚ) : LoopPoints :=
  let mins := endMinInput.getD 0
  let secs := endSecInput.getD 0
  let newEnd := mins * 60 + secs
  if newEnd < 0 ∨ newEnd > duration then tempLoopPoints
  else
    { tempLoopPoints with
        «end» := max newEnd (tempLoopPoints.start + MIN_LOOP_DURATION) }

/-- The loop-point invariant of the specification: both bounds lie in
`[0, duration]` and the window is at least `MIN_LOOP_DURATION` wide. -/
def ValidLoopPoints (lp : LoopPoints) (duration : ℚ) : Prop :=
  0 ≤ lp.start ∧ lp.start ≤ duration ∧ 0 ≤ lp.«end» ∧ lp.«end» ≤ duration ∧
    MIN_LOOP_DURATION ≤ lp.«end» - lp.start

instance (lp : LoopPoints) (duration : ℚ) : Decidable (ValidLoopPoints lp duration) := by
  unfold ValidLoopPoints
  infer_instance

/-- Claim C5 counterexample: with points `{start: 0, end: 5}` on a
10-second buffer, typing a start time of `11` seconds (out of range) is
silently rejected — the pair is left at `{0, 5}` — rather than clamped to
the nearest valid start `min(11, 5 - 0.1) = 4.9` as the claim states. -/
theorem typed_edit_rejected_cex :
    applyStartTime ⟨0, 5⟩ 10 (some 0) (some 11) = ⟨0, 5⟩ ∧
    (applyStartTime ⟨0, 5⟩ 10 (some 0) (some 11)).start ≠
      min 11 ((5 : ℚ) - MIN_LOOP_DURATION) := by
  have hcond : ((some (0 : ℚ)).getD 0 * 60 + (some (11 : ℚ)).getD 0 < 0) ∨
      ((some (0 : ℚ)).getD 0 * 60 + (some (11 : ℚ)).getD 0 > (10 : ℚ)) := by
    right
    show (10 : ℚ) < 0 * 60 + 11
    norm_num
  constructor
  · simp only [applyStartTime]
    rw [if_pos hcond]
  · simp only [applyStartTime]
    rw [if_pos hcond]
    show (0 : ℚ) ≠ min 11 (5 - MIN_LOOP_DURATION)
    norm_num [MIN_LOOP_DURATION, min_def]

/-- Claim C5 (amended): starting from a valid pair, every marker drag and
every in-range typed edit is clamped so the resulting pair still satisfies
`end - start ≥ MIN_LOOP_DURATION` with both bounds in `[0, duration]` (a
drag cannot produce an out-of-range time because the click position is
pre-clamped); a typed start or end time outside `[0, duration]` is
silently ignored — the pair is left unchanged (hence still valid) — rather
than clamped to the nearest valid value.  No edit is ever rejected with an
error or stored as an invalid pair. -/
theorem loop_edit_clamping (lp : LoopPoints) (duration x width : ℚ)
    (minInput secInput : Option ℚ) (m : Marker)
    (hv : ValidLoopPoints lp duration) (hw : 0 < width) :
    ValidLoopPoints (handleMouseMove m lp duration x width) duration ∧
    ValidLoopPoints (applyStartTime lp duration minInput secInput) duration ∧
    ValidLoopPoints (applyEndTime lp duration minInput secInput) duration ∧
    (minInput.getD 0 * 60 + secInput.getD 0 < 0 ∨
        duration < minInput.getD 0 * 60 + secInput.getD 0 →
      applyStartTime lp duration minInput secInput = lp ∧
      applyEndTime lp duration minInput secInput = lp) := by
  obtain ⟨h1, h2, h3, h4, h5⟩ := hv
  have hmpos : (0 : ℚ) < MIN_LOOP_DURATION := by norm_num [MIN_LOOP_DURATION]
  have hd : (0 : ℚ) < duration := by linarith
  have hc0 : (0 : ℚ) ≤ max 0 (min 1 (x / width)) := le_max_left 0 _
  have hc1 : max 0 (min 1 (x / width)) ≤ 1 := max_le (by norm_num) (min_le_left 1 _)
  have hnt0 : (0 : ℚ) ≤ max 0 (min 1 (x / width)) * duration :=
    mul_nonneg hc0 hd.le
  have hntd : max 0 (min 1 (x / width)) * duration ≤ duration := by
    calc max 0 (min 1 (x / width)) * duration ≤ 1 * duration :=
      mul_le_mul_of_nonneg_right hc1 hd.le
    _ = duration := one_mul duration
  refine ⟨?_, ?_, ?_, ?_⟩
  · cases m with
    | start =>
      dsimp only [handleMouseMove, ValidLoopPoints]
      refine ⟨?_, ?_, h3, h4, ?_⟩
      · exact le_min hnt0 (by linarith)
      · exact le_trans (min_le_left _ _) hntd
      · have := min_le_right (max 0 (min 1 (x / width)) * duration)
          (lp.«end» - MIN_LOOP_DURATION)
        linarith
    | «end» =>
      dsimp only [handleMouseMove, ValidLoopPoints]
      refine ⟨h1, h2, ?_, ?_, ?_⟩
      · exact le_trans hnt0 (le_max_left _ _)
      · exact max_le hntd (by linarith)
      · have := le_max_right (max 0 (min 1 (x / width)) * duration)
          (lp.start + MIN_LOOP_DURATION)
        linarith
  · simp only [applyStartTime]
    split_ifs with hcond
    · exact ⟨h1, h2, h3, h4, h5⟩
    · push_neg at hcond
      obtain ⟨hs0, hsd⟩ := hcond
      dsimp only [ValidLoopPoints]
      refine ⟨?_, ?_, h3, h4, ?_⟩
      · exact le_min hs0 (by linarith)
      · exact le_trans (min_le_left _ _) hsd
      · have := min_le_right (minInput.getD 0 * 60 + secInput.getD 0)
          (lp.«end» - MIN_LOOP_DURATION)
        linarith
  · simp only [applyEndTime]
    split_ifs with hcond
    · exact ⟨h1, h2, h3, h4, h5⟩
    · push_neg at hcond
      obtain ⟨hs0, hsd⟩ := hcond
      dsimp only [ValidLoopPoints]
      refine ⟨h1, h2, ?_, ?_, ?_⟩
      · exact le_trans hs0 (le_max_left _ _)
      · exact max_le hsd (by linarith)
      · have := le_max_right (minInput.getD 0 * 60 + secInput.getD 0)
          (lp.start + MIN_LOOP_DURATION)
        linarith
  · intro hout
    constructor
    · simp only [applyStartTime]
      rw [if_pos]
      exact hout
    · simp only [applyEndTime]
      rw [if_pos]
      exact hout

/-- Witness for C5: dragging the start marker of `{2, 5}` to the middle of
a 10-second waveform yields a valid pair, and typing the out-of-range
start time `0:11` leaves `{2, 5}` unchanged. -/
theorem loop_edit_clamping_witness :
    ValidLoopPoints (handleMouseMove Marker.start ⟨2, 5⟩ 10 3 10) 10 ∧
    applyStartTime ⟨2, 5⟩ 10 (some 0) (some 11) = ⟨2, 5⟩ := by
  have h := loop_edit_clamping ⟨2, 5⟩ 10 3 10 (some 0) (some 11) Marker.start
    (by refine ⟨?_, ?_, ?_, ?_, ?_⟩ <;> norm_num [MIN_LOOP_DURATION]) (by norm_num)
  refine ⟨h.1, (h.2.2.2 (Or.inr ?_)).1⟩
  show (10 : ℚ) < 0 * 60 + 11
  norm_num

end LoopEditor
